import Mathlib

/-!
# Verification of the Lorl relay server (src/node/server-node.js)

A shallow embedding of the room/session management and broadcast engine of
`server-node.js`.  JavaScript `Map`s are modelled as association lists with
JS `Map` semantics (`set` updates in place or appends, `delete` removes the
entry, iteration order is insertion order).  JSON values stored in the
per-session state blobs, and the payloads of `custom` events, are modelled
opaquely as strings; a state blob (a JS object) is an association list of
fields.  The JS value of the connection-local `playerId` variable is
`Option (Option String)`: `none` is JS `null` (the initial value),
`some none` is JS `undefined` (a `join` whose `playerId` field is absent),
and `some (some s)` is the string `s`.  Transport handles (`ws`) are
identified by a natural-number connection id; `ws.readyState === OPEN` is
modelled by membership in a list of open connection ids.
-/

namespace LorlServer

/-- Association-list lookup, the model of JS `Map.get` (first binding wins;
in reachable states keys are unique, matching JS `Map`). -/
def aGet {α β : Type} [DecidableEq α] : List (α × β) → α → Option β
  | [], _ => none
  | p :: rest, k => if p.1 = k then some p.2 else aGet rest k

/-- Association-list update, the model of JS `Map.set`: an existing key is
overwritten in place, a fresh key is appended (JS `Map` insertion order). -/
def aSet {α β : Type} [DecidableEq α] : List (α × β) → α → β → List (α × β)
  | [], k, v => [(k, v)]
  | p :: rest, k, v => if p.1 = k then (k, v) :: rest else p :: aSet rest k v

/-- Association-list removal, the model of JS `Map.delete`. -/
def aDel {α β : Type} [DecidableEq α] (l : List (α × β)) (k : α) : List (α × β) :=
  l.filter (fun p => decide (p.1 ≠ k))

/-- An opaque JSON value (values are never inspected by the server). -/
abbrev Val := String

/-- A JS object used as a state blob: an association list of fields. -/
abbrev Obj := List (String × Val)

/-- JS shallow spread-merge of two objects, the model of the source line
`session.data = { ...session.data, ...msg.data }`: keys of `a` keep their
order (taking `b`'s value when `b` also has the key), keys only in `b`
are appended. -/
def jsSpread (a b : Obj) : Obj :=
  a.map (fun p => match aGet b p.1 with | some v => (p.1, v) | none => p)
    ++ b.filter (fun p => decide (aGet a p.1 = none))

/-- A player id as used for room keys: `none` models the JS `undefined`
that arises when a `join` message has no `playerId` field (the server
stores such a session under the key `undefined`). -/
abbrev PId := Option String

/-- One room member: `{ ws, username, data }` in the source.  `conn` is the
opaque transport handle `ws`, identified by connection id. -/
structure Session where
  conn : Nat
  username : String
  data : Obj
  deriving Repr, DecidableEq

/-- `rooms.get(key)`: a room is a JS `Map(playerId -> session)`. -/
abbrev Room := List (PId × Session)

/-- The JS value of the connection-local `playerId` variable:
`none` = `null`, `some none` = `undefined`, `some (some s)` = string `s`. -/
abbrev PVar := Option PId

/-- JS truthiness of the `playerId` variable (`null`, `undefined` and the
empty string are falsy). -/
def pidTruthy : PVar → Bool
  | some (some s) => decide (s ≠ "")
  | _ => false

/-- `msg.username || 'Player'` (absent and empty-string usernames are
falsy, hence default to `"Player"`). -/
def usernameOf : Option String → String
  | some u => if u = "" then "Player" else u
  | none => "Player"

/-- One entry `{ id, username: s.username, data: s.data }` of a
`room_state` players list. -/
structure PlayerInfo where
  id : PId
  username : String
  data : Obj
  deriving Repr, DecidableEq

/-- The outbound messages of the protocol (§ Outbound message schema).
The `playerId` of a `custom` message is the raw JS variable (it can be
`null` or `undefined` for an unjoined sender). -/
inductive OutMsg where
  | error (message : String)
  | room_state (players : List PlayerInfo)
  | player_joined (playerId : PId) (username : String)
  | state_update (playerId : PId) (username : String) (data : Obj)
  | custom (playerId : PVar) (event : Option String) (data : Val)
  | player_left (playerId : PId) (username : String)
  deriving Repr, DecidableEq

/-- The inbound messages after JSON parsing.  `other` covers unrecognized
`type` values and parse failures (both fall through the `switch` with no
effect). -/
inductive InMsg where
  | join (playerId : PId) (username : Option String)
  | state_update (data : Obj)
  | custom (event : Option String) (data : Val)
  | other
  deriving Repr, DecidableEq

/-- `sendTo(ws, msg)`: attempts delivery iff the target transport is open
(`ws.readyState === WebSocket.OPEN`); a send to a non-open socket is
swallowed.  The result is the list of (target, message) deliveries. -/
def sendTo (openConns : List Nat) (ws : Nat) (msg : OutMsg) : List (Nat × OutMsg) :=
  if ws ∈ openConns then [(ws, msg)] else []

/-- `broadcast(room, msg, excludeId)`: delivers `msg` to every member whose
id differs from `excludeId` and whose transport is open.  `excludeId = none`
models the JS `null` (no member id equals `null`, so nobody is excluded);
`some e` excludes the member stored under key `e`. -/
def broadcast (openConns : List Nat) (room : Room) (msg : OutMsg)
    (excludeId : Option PId) : List (Nat × OutMsg) :=
  (room.filter (fun p =>
      (match excludeId with
       | none => true
       | some e => decide (p.1 ≠ e))
      && decide (p.2.conn ∈ openConns))).map (fun p => (p.2.conn, msg))

/-- The outcome of one run of the `ws.on('message')` callback: the room
after the call, the new value of the `playerId` variable, the deliveries
attempted, and whether the server called `ws.close()` on the sender. -/
structure MsgResult where
  room : Room
  playerId : PVar
  sent : List (Nat × OutMsg)
  closedSelf : Bool
  deriving Repr, DecidableEq

/-- The `ws.on('message')` callback of the source, per message type.

* `join`: sets `playerId = msg.playerId` (before the capacity check), then
  either rejects (`error` unicast + `ws.close()`, room untouched) when
  `room.size >= MAX_PLAYERS`, or unicasts the `room_state` snapshot of the
  members present before insertion, inserts the new session, and broadcasts
  `player_joined` excluding the new id.
* `state_update`: `const session = playerId && room.get(playerId)`; a falsy
  `playerId` or an absent session returns with no effect; otherwise the
  session's data becomes the spread-merge with the delta and the delta is
  broadcast excluding the sender's id.
* `custom`: broadcasts unconditionally (no joined-guard in the source),
  excluding the current `playerId` value.
* `other`: falls through the `switch`, no effect. -/
def handleMessage (maxPlayers : Nat) (openConns : List Nat) (selfWs : Nat)
    (playerId : PVar) (room : Room) (msg : InMsg) : MsgResult :=
  match msg with
  | .join pid uname =>
    let playerId' : PVar := some pid
    let username := usernameOf uname
    if room.length ≥ maxPlayers then
      { room := room, playerId := playerId',
        sent := sendTo openConns selfWs (.error "Room is full"), closedSelf := true }
    else
      let playersList := room.map (fun p => PlayerInfo.mk p.1 p.2.username p.2.data)
      let sent1 := sendTo openConns selfWs (.room_state playersList)
      let room' := aSet room pid { conn := selfWs, username := username, data := [] }
      let sent2 := broadcast openConns room' (.player_joined pid username) (some pid)
      { room := room', playerId := playerId', sent := sent1 ++ sent2, closedSelf := false }
  | .state_update d =>
    match playerId with
    | some (some s) =>
      if s = "" then
        { room := room, playerId := playerId, sent := [], closedSelf := false }
      else
        match aGet room (some s) with
        | some sess =>
          let room' := aSet room (some s) { sess with data := jsSpread sess.data d }
          { room := room', playerId := playerId,
            sent := broadcast openConns room'
              (.state_update (some s) sess.username d) (some (some s)),
            closedSelf := false }
        | none => { room := room, playerId := playerId, sent := [], closedSelf := false }
    | _ => { room := room, playerId := playerId, sent := [], closedSelf := false }
  | .custom e d =>
    { room := room, playerId := playerId,
      sent := broadcast openConns room (.custom playerId e d) playerId,
      closedSelf := false }
  | .other => { room := room, playerId := playerId, sent := [], closedSelf := false }

/-- The outcome of the `ws.on('close')` callback: the room afterwards, the
deliveries, and whether the callback reached its final `cleanEmpty()` call
(it returns early when `playerId` is falsy). -/
structure CloseResult where
  room : Room
  sent : List (Nat × OutMsg)
  ranClean : Bool
  deriving Repr, DecidableEq

/-- The `ws.on('close')` callback: `if (!playerId) return;` then, when a
session is stored under `playerId`, it is deleted and `player_left` (with
that session's username) is broadcast to the whole remaining room
(`excludeId = null`); `cleanEmpty()` runs in either case. -/
def handleClose (openConns : List Nat) (playerId : PVar) (room : Room) : CloseResult :=
  match playerId with
  | some (some s) =>
    if s = "" then { room := room, sent := [], ranClean := false }
    else
      match aGet room (some s) with
      | some sess =>
        let room' := aDel room (some s)
        { room := room',
          sent := broadcast openConns room' (.player_left (some s) sess.username) none,
          ranClean := true }
      | none => { room := room, sent := [], ranClean := true }
  | _ => { room := room, sent := [], ranClean := false }

/-- The `ws.on('error')` callback: `if (playerId) room.delete(playerId);`
then `cleanEmpty()`.  It sends nothing — in particular no `player_left`. -/
def handleError (playerId : PVar) (room : Room) : Room :=
  match playerId with
  | some (some s) => if s = "" then room else aDel room (some s)
  | _ => room

/-- `` const key = `${gameId}__${roomId}` `` — the registry key. -/
def roomKey (gameId roomId : String) : String := gameId ++ "__" ++ roomId

/-- The process-wide state: the `rooms` registry maps key strings to room
references; the heap maps references to `Map` objects.  A room object can
outlive its registry entry (a connection closure keeps referencing the
`Map` after `cleanEmpty` dropped the key), which the heap makes explicit. -/
structure ServerState where
  registry : List (String × Nat)
  heap : List (Nat × Room)
  nextRef : Nat
  deriving Repr, DecidableEq

/-- The process state at startup: no rooms. -/
def ServerState.init : ServerState := { registry := [], heap := [], nextRef := 0 }

/-- The room object referenced by `ref`. -/
def heapRoom (s : ServerState) (ref : Nat) : Room := (aGet s.heap ref).getD []

/-- `getRoom(gameId, roomId)`: returns the existing room for the key or
creates a fresh empty one (`rooms.set(key, new Map())`). -/
def getRoom (gameId roomId : String) (s : ServerState) : Nat × ServerState :=
  let key := roomKey gameId roomId
  match aGet s.registry key with
  | some ref => (ref, s)
  | none =>
    (s.nextRef,
      { registry := s.registry ++ [(key, s.nextRef)],
        heap := s.heap ++ [(s.nextRef, [])],
        nextRef := s.nextRef + 1 })

/-- `cleanEmpty()`: removes every registry entry whose room holds zero
sessions.  Room objects themselves survive on the heap (closures may still
reference them). -/
def cleanEmpty (s : ServerState) : ServerState :=
  { s with registry := s.registry.filter (fun p => decide ((heapRoom s p.2).length ≠ 0)) }

/-- `rooms.size`, as reported by the HTTP status endpoint. -/
def statusRooms (s : ServerState) : Nat := s.registry.length

/-- `[...rooms.values()].reduce((a, r) => a + r.size, 0)`, as reported by
the HTTP status endpoint. -/
def statusPlayers (s : ServerState) : Nat :=
  (s.registry.map (fun p => (heapRoom s p.2).length)).sum

/-- The per-connection closure state: the captured room reference and the
`playerId` variable. -/
structure ConnSt where
  ref : Nat
  playerId : PVar
  deriving Repr, DecidableEq

/-- The whole observable world: server state, per-connection closures, the
set of open transports, and every delivery attempted so far. -/
structure World where
  server : ServerState
  conns : List (Nat × ConnSt)
  openConns : List Nat
  outbox : List (Nat × OutMsg)
  deriving Repr, DecidableEq

/-- The world before any connection. -/
def World.init : World :=
  { server := ServerState.init, conns := [], openConns := [], outbox := [] }

/-- External events driving the server: a new transport connection (with
optional `game`/`room` query parameters), an inbound message, a graceful
transport close, a transport error. -/
inductive Ev where
  | connect (c : Nat) (game room : Option String)
  | inbound (c : Nat) (m : InMsg)
  | close (c : Nat)
  | error (c : Nat)
  deriving Repr, DecidableEq

/-- `url.searchParams.get(p) || dflt` (absent parameters are `null`, and
the empty string is falsy). -/
def paramOr (v : Option String) (dflt : String) : String :=
  match v with
  | some x => if x = "" then dflt else x
  | none => dflt

/-- One event step of the server.

* `connect`: resolves `game`/`room` (defaults `"unknown"`/`"default"`),
  runs `getRoom`, and registers the connection closure with `playerId = null`.
* `inbound`: runs the message callback on the connection's room object and
  writes the room back to the heap.  `ws.close()` (a rejected join) makes
  the transport non-open.
* `close`: the transport is no longer open; the close callback runs, and
  `cleanEmpty()` iff the callback reaches it.
* `error`: the error callback runs (delete + `cleanEmpty()`, no sends). -/
def step (maxPlayers : Nat) (w : World) (e : Ev) : World :=
  match e with
  | .connect c game room =>
    let gameId := paramOr game "unknown"
    let roomId := paramOr room "default"
    let (ref, s') := getRoom gameId roomId w.server
    { server := s', conns := aSet w.conns c { ref := ref, playerId := none },
      openConns := c :: w.openConns, outbox := w.outbox }
  | .inbound c m =>
    match aGet w.conns c with
    | none => w
    | some cs =>
      let room := heapRoom w.server cs.ref
      let r := handleMessage maxPlayers w.openConns c cs.playerId room m
      { server := { w.server with heap := aSet w.server.heap cs.ref r.room },
        conns := aSet w.conns c { ref := cs.ref, playerId := r.playerId },
        openConns := if r.closedSelf
          then w.openConns.filter (fun x => decide (x ≠ c)) else w.openConns,
        outbox := w.outbox ++ r.sent }
  | .close c =>
    match aGet w.conns c with
    | none => w
    | some cs =>
      let openConns' := w.openConns.filter (fun x => decide (x ≠ c))
      let room := heapRoom w.server cs.ref
      let r := handleClose openConns' cs.playerId room
      let s' : ServerState :=
        { w.server with heap := aSet w.server.heap cs.ref r.room }
      { server := if r.ranClean then cleanEmpty s' else s',
        conns := w.conns, openConns := openConns', outbox := w.outbox ++ r.sent }
  | .error c =>
    match aGet w.conns c with
    | none => w
    | some cs =>
      let room := heapRoom w.server cs.ref
      let room' := handleError cs.playerId room
      let s' : ServerState :=
        { w.server with heap := aSet w.server.heap cs.ref room' }
      { server := cleanEmpty s',
        conns := w.conns,
        openConns := w.openConns.filter (fun x => decide (x ≠ c)),
        outbox := w.outbox }

/-- Run a sequence of events from a starting world. -/
def run (maxPlayers : Nat) (w : World) (es : List Ev) : World :=
  es.foldl (step maxPlayers) w

/-! ## Association-list lemmas (JS `Map` semantics) -/

theorem aGet_eq_none_iff {α β : Type} [DecidableEq α] (l : List (α × β)) (k : α) :
    aGet l k = none ↔ ∀ p ∈ l, p.1 ≠ k := by
  induction l with
  | nil => simp [aGet]
  | cons p rest ih =>
    by_cases h : p.1 = k
    · simp [aGet, h]
    · simp [aGet, h, ih]

theorem aGet_aSet_self {α β : Type} [DecidableEq α] (l : List (α × β)) (k : α) (v : β) :
    aGet (aSet l k v) k = some v := by
  induction l with
  | nil => simp [aSet, aGet]
  | cons p rest ih =>
    by_cases h : p.1 = k
    · simp [aSet, h, aGet]
    · simp [aSet, h, aGet, ih]

theorem aGet_aSet_ne {α β : Type} [DecidableEq α] (l : List (α × β)) {k k' : α} (v : β)
    (h : k' ≠ k) : aGet (aSet l k v) k' = aGet l k' := by
  induction l with
  | nil =>
    simp only [aSet, aGet]
    rw [if_neg (fun hh : k = k' => h hh.symm)]
  | cons p rest ih =>
    by_cases hp : p.1 = k
    · simp only [aSet, if_pos hp, aGet]
      rw [if_neg (fun hh : k = k' => h hh.symm), hp,
        if_neg (fun hh : k = k' => h hh.symm)]
    · simp only [aSet, if_neg hp, aGet]
      by_cases hk : p.1 = k' <;> simp [hk, ih]

theorem aSet_length {α β : Type} [DecidableEq α] (l : List (α × β)) (k : α) (v : β) :
    (aSet l k v).length = if (aGet l k).isSome then l.length else l.length + 1 := by
  induction l with
  | nil => simp [aSet, aGet]
  | cons p rest ih =>
    by_cases h : p.1 = k
    · simp [aSet, h, aGet]
    · simp only [aSet, if_neg h, List.length_cons, aGet, ih]
      split <;> omega

theorem mem_aSet_of_ne {α β : Type} [DecidableEq α] {l : List (α × β)} {q : α × β}
    {k : α} (v : β) (hq : q ∈ l) (h : q.1 ≠ k) : q ∈ aSet l k v := by
  induction l with
  | nil => cases hq
  | cons p rest ih =>
    by_cases hp : p.1 = k
    · rcases List.mem_cons.mp hq with rfl | hq'
      · exact absurd hp h
      · simp only [aSet, if_pos hp]
        exact List.mem_cons_of_mem _ hq'
    · rcases List.mem_cons.mp hq with rfl | hq'
      · simp [aSet, hp]
      · simp only [aSet, if_neg hp]
        exact List.mem_cons_of_mem _ (ih hq')

theorem mem_keys_aSet {α β : Type} [DecidableEq α] {l : List (α × β)} {k a : α} {v : β}
    (h : a ∈ (aSet l k v).map Prod.fst) : a = k ∨ a ∈ l.map Prod.fst := by
  induction l with
  | nil => simpa [aSet] using h
  | cons p rest ih =>
    by_cases hp : p.1 = k
    · simp only [aSet, if_pos hp, List.map_cons, List.mem_cons] at h
      rcases h with rfl | h
      · exact Or.inl rfl
      · exact Or.inr (by simp [h])
    · simp only [aSet, if_neg hp, List.map_cons, List.mem_cons] at h
      rcases h with rfl | h
      · exact Or.inr (by simp)
      · rcases ih h with rfl | h'
        · exact Or.inl rfl
        · exact Or.inr (by simp [h'])

theorem keys_nodup_aSet {α β : Type} [DecidableEq α] {l : List (α × β)} (k : α) (v : β)
    (h : (l.map Prod.fst).Nodup) : ((aSet l k v).map Prod.fst).Nodup := by
  induction l with
  | nil => simp [aSet]
  | cons p rest ih =>
    simp only [List.map_cons, List.nodup_cons] at h
    by_cases hp : p.1 = k
    · simp only [aSet, if_pos hp, List.map_cons, List.nodup_cons]
      exact ⟨hp ▸ h.1, h.2⟩
    · simp only [aSet, if_neg hp, List.map_cons, List.nodup_cons]
      refine ⟨fun hmem => ?_, ih h.2⟩
      rcases mem_keys_aSet hmem with rfl | h'
      · exact hp rfl
      · exact h.1 h'

theorem aGet_aDel {α β : Type} [DecidableEq α] (l : List (α × β)) (k k' : α) :
    aGet (aDel l k) k' = if k' = k then none else aGet l k' := by
  induction l with
  | nil => simp [aDel, aGet]
  | cons p rest ih =>
    by_cases hp : p.1 = k
    · rw [show aDel (p :: rest) k = aDel rest k by simp [aDel, List.filter_cons, hp], ih]
      by_cases hk : k' = k
      · simp [hk]
      · rw [if_neg hk, if_neg hk]
        simp only [aGet]
        rw [if_neg (fun hh : p.1 = k' => hk (hh.symm.trans hp))]
    · rw [show aDel (p :: rest) k = p :: aDel rest k by simp [aDel, List.filter_cons, hp]]
      simp only [aGet]
      by_cases hk : p.1 = k'
      · rw [if_pos hk, if_pos hk, if_neg (fun hh : k' = k => hp (hk.trans hh))]
      · rw [if_neg hk, if_neg hk, ih]

theorem mem_aDel_of_ne {α β : Type} [DecidableEq α] {l : List (α × β)} {q : α × β}
    {k : α} (hq : q ∈ l) (h : q.1 ≠ k) : q ∈ aDel l k := by
  simp only [aDel, List.mem_filter]
  exact ⟨hq, by simpa using h⟩

theorem mem_of_mem_aDel {α β : Type} [DecidableEq α] {l : List (α × β)} {q : α × β}
    {k : α} (hq : q ∈ aDel l k) : q ∈ l ∧ q.1 ≠ k := by
  simp only [aDel, List.mem_filter, decide_eq_true_eq] at hq
  exact hq

theorem aDel_length_lt {α β : Type} [DecidableEq α] {l : List (α × β)} {k : α} {v : β}
    (h : aGet l k = some v) : (aDel l k).length < l.length := by
  induction l with
  | nil => simp [aGet] at h
  | cons p rest ih =>
    by_cases hp : p.1 = k
    · rw [show aDel (p :: rest) k = aDel rest k by simp [aDel, List.filter_cons, hp]]
      have := List.length_filter_le (fun p : α × β => decide (p.1 ≠ k)) rest
      simp only [aDel, List.length_cons]
      omega
    · simp only [aGet, if_neg hp] at h
      rw [show aDel (p :: rest) k = p :: aDel rest k by simp [aDel, List.filter_cons, hp]]
      simpa using ih h

/-! ## Shallow-merge lemmas -/

theorem aGet_append {α β : Type} [DecidableEq α] (l1 l2 : List (α × β)) (k : α) :
    aGet (l1 ++ l2) k =
      match aGet l1 k with
      | some v => some v
      | none => aGet l2 k := by
  induction l1 with
  | nil => simp [aGet]
  | cons p rest ih =>
    by_cases hp : p.1 = k <;> simp [aGet, hp, ih]

theorem aGet_spread_map (a b : Obj) (k : String) :
    aGet (a.map (fun p => match aGet b p.1 with | some v => (p.1, v) | none => p)) k =
      match aGet a k with
      | some v => some (match aGet b k with | some w => w | none => v)
      | none => none := by
  induction a with
  | nil => simp [aGet]
  | cons p rest ih =>
    by_cases hp : p.1 = k
    · subst hp
      cases hb : aGet b p.1 <;> simp [aGet, hb, ih]
    · cases hb : aGet b p.1 <;> simp [aGet, hp, hb, ih]

theorem aGet_spread_filter (a b : Obj) (k : String) :
    aGet (b.filter (fun p => decide (aGet a p.1 = none))) k =
      if aGet a k = none then aGet b k else none := by
  induction b with
  | nil => simp [aGet]
  | cons p rest ih =>
    by_cases hp : p.1 = k
    · subst hp
      by_cases ha : aGet a p.1 = none <;>
        simp [List.filter_cons, ha, aGet, ih]
    · by_cases ha : aGet a p.1 = none <;>
        simp [List.filter_cons, ha, aGet, hp, ih]

/-- The field-level meaning of the JS spread-merge: the delta's fields
overwrite, all other stored fields persist. -/
theorem jsSpread_aGet (a b : Obj) (k : String) :
    aGet (jsSpread a b) k =
      match aGet b k with
      | some v => some v
      | none => aGet a k := by
  unfold jsSpread
  rw [aGet_append, aGet_spread_map]
  cases ha : aGet a k <;> cases hb : aGet b k <;>
    simp [aGet_spread_filter, ha, hb]

/-! ## Broadcast lemmas -/

/-- Unfolding `broadcast` over the head member. -/
theorem broadcast_cons (openConns : List Nat) (p : PId × Session) (rest : Room)
    (msg : OutMsg) (ex : Option PId) :
    broadcast openConns (p :: rest) msg ex =
      if ((match ex with
           | none => true
           | some e => decide (p.1 ≠ e)) && decide (p.2.conn ∈ openConns)) = true
      then (p.2.conn, msg) :: broadcast openConns rest msg ex
      else broadcast openConns rest msg ex := by
  simp only [broadcast, List.filter_cons]
  split
  · simp
  · rfl

/-- A member not excluded and whose transport is open receives the
broadcast message. -/
theorem mem_broadcast_of (openConns : List Nat) (room : Room) (msg : OutMsg)
    (ex : Option PId) {q : PId × Session} (hq : q ∈ room)
    (hex : match ex with | none => True | some e => q.1 ≠ e)
    (ho : q.2.conn ∈ openConns) :
    (q.2.conn, msg) ∈ broadcast openConns room msg ex := by
  unfold broadcast
  refine List.mem_map.mpr ⟨q, List.mem_filter.mpr ⟨hq, ?_⟩, rfl⟩
  cases ex with
  | none => simpa using ho
  | some e =>
    simp only [Bool.and_eq_true, decide_eq_true_eq]
    exact ⟨hex, ho⟩

/-- Every delivery of a broadcast carries the broadcast message and targets
the transport of a non-excluded member of the room broadcast over. -/
theorem of_mem_broadcast {openConns : List Nat} {room : Room} {msg : OutMsg}
    {ex : Option PId} {t : Nat × OutMsg}
    (ht : t ∈ broadcast openConns room msg ex) :
    t.2 = msg ∧ ∃ q, q ∈ room ∧ q.2.conn = t.1 ∧
      (match ex with | none => True | some e => q.1 ≠ e) := by
  unfold broadcast at ht
  rcases List.mem_map.mp ht with ⟨q, hq, heq⟩
  rcases List.mem_filter.mp hq with ⟨hmem, hcond⟩
  refine ⟨by rw [← heq], q, hmem, by rw [← heq], ?_⟩
  cases ex with
  | none => trivial
  | some e =>
    simp only [Bool.and_eq_true, decide_eq_true_eq] at hcond
    exact hcond.1

/-- A connection id that is not the transport of any member receives
nothing from a broadcast. -/
theorem broadcast_count_zero {openConns : List Nat} {room : Room} {msg : OutMsg}
    {ex : Option PId} {c : Nat} (m : OutMsg)
    (hc : c ∉ room.map (fun p => p.2.conn)) :
    (broadcast openConns room msg ex).count (c, m) = 0 := by
  induction room with
  | nil => rfl
  | cons p rest ih =>
    simp only [List.map_cons, List.mem_cons, not_or] at hc
    rw [broadcast_cons]
    split
    · rw [List.count_cons]
      have hb : ¬ (((p.2.conn, msg) : Nat × OutMsg) == (c, m)) = true := by
        simp only [beq_iff_eq]
        intro hh
        exact hc.1 (congrArg Prod.fst hh).symm
      rw [if_neg hb, ih hc.2]
    · exact ih hc.2

/-- When members have pairwise distinct transports, an open, non-excluded
member receives a broadcast exactly once. -/
theorem broadcast_count_one {openConns : List Nat} {room : Room} {msg : OutMsg}
    {q : PId × Session}
    (hnodup : (room.map (fun p => p.2.conn)).Nodup)
    (hq : q ∈ room) (ho : q.2.conn ∈ openConns) :
    (broadcast openConns room msg none).count (q.2.conn, msg) = 1 := by
  induction room with
  | nil => cases hq
  | cons p rest ih =>
    simp only [List.map_cons, List.nodup_cons] at hnodup
    rcases List.mem_cons.mp hq with rfl | hq'
    · rw [broadcast_cons, if_pos (by simpa using ho), List.count_cons]
      have h0 : (broadcast openConns rest msg none).count (q.2.conn, msg) = 0 :=
        broadcast_count_zero msg hnodup.1
      simp [h0]
    · have hcne : q.2.conn ≠ p.2.conn := by
        intro hh
        exact hnodup.1 (hh ▸ List.mem_map_of_mem (fun x => x.2.conn) hq')
      rw [broadcast_cons]
      split
      · rw [List.count_cons]
        have hb : ¬ (((p.2.conn, msg) : Nat × OutMsg) == (q.2.conn, msg)) = true := by
          simp only [beq_iff_eq]
          intro hh
          exact hcne (congrArg Prod.fst hh).symm
        rw [if_neg hb, ih hnodup.2 hq']
      · exact ih hnodup.2 hq'

/-- The `ws.on('error')` callback sends nothing: an `error` event never
adds a delivery to the outbox, whatever the world state. -/
theorem step_error_outbox (maxPlayers : Nat) (w : World) (c : Nat) :
    (step maxPlayers w (Ev.error c)).outbox = w.outbox := by
  cases h : aGet w.conns c <;> simp [step, h]

/-! ## Registry lemmas -/

theorem aGet_mem {α β : Type} [DecidableEq α] {l : List (α × β)} {k : α} {v : β}
    (h : aGet l k = some v) : (k, v) ∈ l := by
  induction l with
  | nil => simp [aGet] at h
  | cons p rest ih =>
    by_cases hp : p.1 = k
    · simp only [aGet, if_pos hp, Option.some_inj] at h
      subst h
      exact List.mem_cons.mpr (Or.inl (Prod.ext hp.symm rfl))
    · simp only [aGet, if_neg hp] at h
      exact List.mem_cons_of_mem _ (ih h)

/-- When the stored values are pairwise distinct, `aGet` is injective on
keys that hit. -/
theorem aGet_inj_of_values_nodup {α β : Type} [DecidableEq α] {l : List (α × β)}
    (hnd : (l.map Prod.snd).Nodup) {k1 k2 : α} {r : β}
    (h1 : aGet l k1 = some r) (h2 : aGet l k2 = some r) : k1 = k2 := by
  induction l with
  | nil => simp [aGet] at h1
  | cons p rest ih =>
    simp only [List.map_cons, List.nodup_cons] at hnd
    by_cases hp1 : p.1 = k1
    · by_cases hp2 : p.1 = k2
      · exact hp1.symm.trans hp2
      · simp only [aGet, if_pos hp1, Option.some_inj] at h1
        simp only [aGet, if_neg hp2] at h2
        have hin : r ∈ rest.map Prod.snd :=
          List.mem_map_of_mem Prod.snd (aGet_mem h2)
        rw [← h1] at hin
        exact absurd hin hnd.1
    · by_cases hp2 : p.1 = k2
      · simp only [aGet, if_pos hp2, Option.some_inj] at h2
        simp only [aGet, if_neg hp1] at h1
        have hin : r ∈ rest.map Prod.snd :=
          List.mem_map_of_mem Prod.snd (aGet_mem h1)
        rw [← h2] at hin
        exact absurd hin hnd.1
      · simp only [aGet, if_neg hp1] at h1
        simp only [aGet, if_neg hp2] at h2
        exact ih hnd.2 h1 h2

/-- Registry well-formedness (holds in every reachable state): no two keys
share a room reference, and all references are below the allocator. -/
def regWF (s : ServerState) : Prop :=
  (s.registry.map Prod.snd).Nodup ∧ ∀ p ∈ s.registry, p.2 < s.nextRef

instance (s : ServerState) : Decidable (regWF s) := by
  unfold regWF
  exact instDecidableAnd

theorem getRoom_found {gameId roomId : String} {s : ServerState} {ref : Nat}
    (h : aGet s.registry (roomKey gameId roomId) = some ref) :
    getRoom gameId roomId s = (ref, s) := by
  simp [getRoom, h]

theorem getRoom_fresh {gameId roomId : String} {s : ServerState}
    (h : aGet s.registry (roomKey gameId roomId) = none) :
    getRoom gameId roomId s =
      (s.nextRef,
        { registry := s.registry ++ [(roomKey gameId roomId, s.nextRef)],
          heap := s.heap ++ [(s.nextRef, [])],
          nextRef := s.nextRef + 1 }) := by
  simp [getRoom, h]

/-! ## Concrete traces used by the counterexamples -/

/-- Two clients connect to room `(g, r)` and join as `p1`/`p2`. -/
def twoJoinWorld : World :=
  run 50 World.init
    [Ev.connect 1 (some "g") (some "r"),
     Ev.inbound 1 (InMsg.join (some "p1") (some "Al")),
     Ev.connect 2 (some "g") (some "r"),
     Ev.inbound 2 (InMsg.join (some "p2") (some "Bo"))]

/-- A client joins room `(g, r)` and closes again: the close handler's
cleanup pass has just removed the empty room. -/
def cleanedWorld : World :=
  run 50 World.init
    [Ev.connect 1 (some "g") (some "r"),
     Ev.inbound 1 (InMsg.join (some "p1") (some "Al")),
     Ev.close 1]

/-- With `MAX_PLAYERS = 2`, clients 1 and 2 fill room `(g, r)` as
`p1`/`p2`; client 3's join as `"p1"` is then rejected for capacity, so
client 3 never joins — but its connection-local `playerId` was recorded
before the capacity check. -/
def rejectedWorld : World :=
  run 2 World.init
    [Ev.connect 1 (some "g") (some "r"),
     Ev.inbound 1 (InMsg.join (some "p1") (some "Al")),
     Ev.connect 2 (some "g") (some "r"),
     Ev.inbound 2 (InMsg.join (some "p2") (some "Bo")),
     Ev.connect 3 (some "g") (some "r"),
     Ev.inbound 3 (InMsg.join (some "p1") (some "Zed"))]

/-! ## The claims -/

/-- Claim C1, counterexample.  The claim says a transport error is treated
identically to a graceful close: membership removal AND a `player_left`
broadcast.  In the code the `error` callback only deletes the session and
never broadcasts.  Concretely: after `p1` and `p2` join room `(g, r)`, an
`error` on `p2`'s transport removes `p2` from the room but adds nothing to
the outbox — even when the transport's `close` event follows the error, no
`player_left` is emitted (the session is already gone) — whereas a plain
graceful close emits exactly one `player_left` to `p1`. -/
theorem C1_counterexample :
    (step 50 twoJoinWorld (Ev.error 2)).outbox = twoJoinWorld.outbox
    ∧ heapRoom (step 50 twoJoinWorld (Ev.error 2)).server 0
        = [(some "p1", Session.mk 1 "Al" [])]
    ∧ (run 50 twoJoinWorld [Ev.error 2, Ev.close 2]).outbox = twoJoinWorld.outbox
    ∧ (step 50 twoJoinWorld (Ev.close 2)).outbox
        = twoJoinWorld.outbox ++ [(1, OutMsg.player_left (some "p2") "Bo")] := by
  decide

/-- Claim C1 (amended): for every joined session, a transport error
performs the same membership removal as a graceful close and triggers the
cleanup pass, but broadcasts nothing (an `error` event never adds to the
outbox); only the graceful-close path broadcasts `player_left`, carrying
the session's playerId and username, exactly once to each remaining open
member. -/
theorem C1_amended (openConns : List Nat) (room : Room) (p : String) (sess : Session)
    (hp : p ≠ "") (hsess : aGet room (some p) = some sess)
    (hnd : ((aDel room (some p)).map (fun x => x.2.conn)).Nodup) :
    handleError (some (some p)) room = aDel room (some p)
    ∧ (handleClose openConns (some (some p)) room).room = aDel room (some p)
    ∧ (handleClose openConns (some (some p)) room).ranClean = true
    ∧ (∀ q ∈ aDel room (some p), q.2.conn ∈ openConns →
        (handleClose openConns (some (some p)) room).sent.count
          (q.2.conn, OutMsg.player_left (some p) sess.username) = 1)
    ∧ (∀ t ∈ (handleClose openConns (some (some p)) room).sent,
        t.2 = OutMsg.player_left (some p) sess.username)
    ∧ (∀ (maxPlayers : Nat) (w : World) (c : Nat),
        (step maxPlayers w (Ev.error c)).outbox = w.outbox) := by
  have hcl : handleClose openConns (some (some p)) room =
      { room := aDel room (some p),
        sent := broadcast openConns (aDel room (some p))
          (OutMsg.player_left (some p) sess.username) none,
        ranClean := true } := by
    simp [handleClose, hp, hsess]
  refine ⟨by simp [handleError, hp], by rw [hcl], by rw [hcl], ?_, ?_, step_error_outbox⟩
  · intro q hq ho
    rw [hcl]
    exact broadcast_count_one hnd hq ho
  · intro t ht
    rw [hcl] at ht
    have ht' : t ∈ broadcast openConns (aDel room (some p))
        (OutMsg.player_left (some p) sess.username) none := ht
    exact (of_mem_broadcast ht').1

/-- Witness for C1 (amended) at a concrete two-member room. -/
theorem C1_amended_witness :
    handleError (some (some "p2"))
        [(some "p1", Session.mk 1 "Al" []), (some "p2", Session.mk 2 "Bo" [])]
      = [(some "p1", Session.mk 1 "Al" [])]
    ∧ (handleClose [1] (some (some "p2"))
        [(some "p1", Session.mk 1 "Al" []), (some "p2", Session.mk 2 "Bo" [])]).sent.count
          (1, OutMsg.player_left (some "p2") "Bo") = 1 := by
  have h := C1_amended [1]
    [(some "p1", Session.mk 1 "Al" []), (some "p2", Session.mk 2 "Bo" [])]
    "p2" (Session.mk 2 "Bo" []) (by decide) (by decide) (by decide)
  refine ⟨?_, ?_⟩
  · rw [h.1]
    decide
  · exact h.2.2.2.1 (some "p1", Session.mk 1 "Al" []) (by decide) (by decide)

/-- Claim C2, counterexample.  The claim says any two distinct
`(gameId, roomId)` pairs give fully isolated rooms.  The registry key is
the concatenation `gameId ++ "__" ++ roomId`, so the distinct pairs
`("a__b", "c")` and `("a", "b__c")` collide on key `"a__b__c"`: `getRoom`
hands both connections the same room reference. -/
theorem C2_counterexample :
    (("a__b", "c") ≠ (("a" : String), ("b__c" : String)))
    ∧ roomKey "a__b" "c" = roomKey "a" "b__c"
    ∧ (getRoom "a" "b__c" (getRoom "a__b" "c" ServerState.init).2).1
        = (getRoom "a__b" "c" ServerState.init).1 := by
  decide

/-- Claim C2 (amended): two key pairs whose concatenated registry keys
`gameId ++ "__" ++ roomId` differ are placed in distinct rooms (distinct
references, in any well-formed registry), and a broadcast only ever
targets transports of members of the room it is issued in; distinct pairs
whose ids contain the separator `__` may collide and then share a room. -/
theorem C2_amended (g1 r1 g2 r2 : String) (s : ServerState) (hwf : regWF s)
    (hne : roomKey g1 r1 ≠ roomKey g2 r2) :
    (getRoom g2 r2 (getRoom g1 r1 s).2).1 ≠ (getRoom g1 r1 s).1
    ∧ (∀ (openConns : List Nat) (room : Room) (msg : OutMsg) (ex : Option PId)
        (t : Nat × OutMsg), t ∈ broadcast openConns room msg ex →
          ∃ q, q ∈ room ∧ q.2.conn = t.1) := by
  constructor
  · cases h1 : aGet s.registry (roomKey g1 r1) with
    | some ref1 =>
      rw [getRoom_found h1]
      show (getRoom g2 r2 s).1 ≠ ref1
      cases h2 : aGet s.registry (roomKey g2 r2) with
      | some ref2 =>
        rw [getRoom_found h2]
        intro hh
        exact hne (aGet_inj_of_values_nodup hwf.1 h1 (hh ▸ h2))
      | none =>
        rw [getRoom_fresh h2]
        have : ref1 < s.nextRef := hwf.2 _ (aGet_mem h1)
        show s.nextRef ≠ ref1
        omega
    | none =>
      rw [getRoom_fresh h1]
      cases h2 : aGet s.registry (roomKey g2 r2) with
      | some ref2 =>
        have h2' : aGet (s.registry ++ [(roomKey g1 r1, s.nextRef)]) (roomKey g2 r2)
            = some ref2 := by
          rw [aGet_append, h2]
        rw [getRoom_found h2']
        have : ref2 < s.nextRef := hwf.2 _ (aGet_mem h2)
        show ref2 ≠ s.nextRef
        omega
      | none =>
        have h2' : aGet (s.registry ++ [(roomKey g1 r1, s.nextRef)]) (roomKey g2 r2)
            = none := by
          rw [aGet_append, h2]
          simp only [aGet]
          rw [if_neg hne]
        rw [getRoom_fresh h2']
        show s.nextRef + 1 ≠ s.nextRef
        omega
  · intro openConns room msg ex t ht
    rcases (of_mem_broadcast ht).2 with ⟨q, hq, hconn, _⟩
    exact ⟨q, hq, hconn⟩

/-- Witness for C2 (amended): distinct collision-free keys on the empty
registry give distinct rooms. -/
theorem C2_amended_witness :
    (getRoom "c" "d" (getRoom "a" "b" ServerState.init).2).1
      ≠ (getRoom "a" "b" ServerState.init).1 :=
  (C2_amended "a" "b" "c" "d" ServerState.init (by decide) (by decide)).1

/-- Claim C3: a `join` arriving when the room holds exactly `MAX_PLAYERS`
sessions is rejected — an `error` message is unicast to the joining
connection, the connection is closed, and no session is inserted; a `join`
at `MAX_PLAYERS - 1` sessions succeeds and inserts the session; and after
any successful join the room size never exceeds `MAX_PLAYERS`. -/
theorem C3_capacity (maxPlayers : Nat) (openConns : List Nat) (selfWs : Nat)
    (playerId : PVar) (room : Room) (pid : PId) (uname : Option String) :
    (room.length = maxPlayers →
      handleMessage maxPlayers openConns selfWs playerId room (.join pid uname)
        = { room := room, playerId := some pid,
            sent := sendTo openConns selfWs (.error "Room is full"),
            closedSelf := true })
    ∧ (room.length = maxPlayers → selfWs ∈ openConns →
        (handleMessage maxPlayers openConns selfWs playerId room (.join pid uname)).sent
          = [(selfWs, OutMsg.error "Room is full")])
    ∧ (room.length + 1 = maxPlayers →
        (handleMessage maxPlayers openConns selfWs playerId room
            (.join pid uname)).closedSelf = false
        ∧ aGet (handleMessage maxPlayers openConns selfWs playerId room
            (.join pid uname)).room pid
          = some { conn := selfWs, username := usernameOf uname, data := [] })
    ∧ (room.length < maxPlayers →
        (handleMessage maxPlayers openConns selfWs playerId room
            (.join pid uname)).room.length ≤ maxPlayers) := by
  refine ⟨?_, ?_, ?_, ?_⟩
  · intro h
    simp only [handleMessage]
    rw [if_pos (by omega)]
  · intro h hopen
    simp only [handleMessage]
    rw [if_pos (by omega)]
    show sendTo openConns selfWs (.error "Room is full") = _
    simp [sendTo, hopen]
  · intro h
    simp only [handleMessage]
    rw [if_neg (by omega)]
    exact ⟨rfl, aGet_aSet_self room pid _⟩
  · intro h
    simp only [handleMessage]
    rw [if_neg (by omega)]
    show (aSet room pid { conn := selfWs, username := usernameOf uname, data := [] }).length
      ≤ maxPlayers
    rw [aSet_length]
    split <;> omega

/-- Witness for C3 at `MAX_PLAYERS = 1` (rejection) and `MAX_PLAYERS = 2`
(success at capacity − 1). -/
theorem C3_capacity_witness :
    (handleMessage 1 [1, 2] 2 none [(some "a", Session.mk 1 "A" [])]
        (.join (some "b") none)).closedSelf = true
    ∧ (handleMessage 1 [1, 2] 2 none [(some "a", Session.mk 1 "A" [])]
        (.join (some "b") none)).sent = [(2, OutMsg.error "Room is full")]
    ∧ (handleMessage 2 [1, 2] 2 none [(some "a", Session.mk 1 "A" [])]
        (.join (some "b") none)).closedSelf = false
    ∧ (handleMessage 2 [1, 2] 2 none [(some "a", Session.mk 1 "A" [])]
        (.join (some "b") none)).room.length ≤ 2 := by
  refine ⟨?_, ?_, ?_, ?_⟩
  · rw [(C3_capacity 1 [1, 2] 2 none [(some "a", Session.mk 1 "A" [])]
      (some "b") none).1 (by decide)]
  · exact (C3_capacity 1 [1, 2] 2 none [(some "a", Session.mk 1 "A" [])]
      (some "b") none).2.1 (by decide) (by decide)
  · exact ((C3_capacity 2 [1, 2] 2 none [(some "a", Session.mk 1 "A" [])]
      (some "b") none).2.2.1 (by decide)).1
  · exact (C3_capacity 2 [1, 2] 2 none [(some "a", Session.mk 1 "A" [])]
      (some "b") none).2.2.2 (by decide)

/-- Claim C4, counterexample.  The claim says the `room_state` snapshot
never contains an entry whose id equals the joining client's own playerId.
When a connection joins with a playerId already present in the room, the
snapshot — built from the room before insertion — does contain that id:
here connection 2 joins as `"p1"` while `"p1"` is already a member, and
the snapshot unicast to it lists an entry with id `"p1"`. -/
theorem C4_counterexample :
    (handleMessage 50 [1, 2] 2 none [(some "p1", Session.mk 1 "Al" [])]
        (InMsg.join (some "p1") (some "Bo"))).sent
      = [(2, OutMsg.room_state [PlayerInfo.mk (some "p1") "Al" []])]
    ∧ (PlayerInfo.mk (some "p1") "Al" []).id = some "p1" := by
  decide

/-- Claim C4 (amended): for every successful join, the `room_state`
snapshot unicast to the joining connection lists exactly the members
present before its own insertion; provided the joining playerId is not
already present in the room, the snapshot contains no entry with that id
(a duplicate-id join does see its own id). -/
theorem C4_amended (maxPlayers : Nat) (openConns : List Nat) (selfWs : Nat)
    (playerId : PVar) (room : Room) (pid : PId) (uname : Option String)
    (hcap : room.length < maxPlayers) (hopen : selfWs ∈ openConns) :
    (∃ rest, (handleMessage maxPlayers openConns selfWs playerId room
        (.join pid uname)).sent
      = (selfWs, OutMsg.room_state
          (room.map (fun p => PlayerInfo.mk p.1 p.2.username p.2.data))) :: rest)
    ∧ (aGet room pid = none →
        ∀ e ∈ room.map (fun p => PlayerInfo.mk p.1 p.2.username p.2.data),
          e.id ≠ pid) := by
  constructor
  · refine ⟨broadcast openConns
      (aSet room pid { conn := selfWs, username := usernameOf uname, data := [] })
      (OutMsg.player_joined pid (usernameOf uname)) (some pid), ?_⟩
    simp only [handleMessage]
    rw [if_neg (by omega)]
    show sendTo openConns selfWs _ ++ _ = _
    simp [sendTo, hopen]
  · intro hnone e he
    rcases List.mem_map.mp he with ⟨q, hq, rfl⟩
    exact (aGet_eq_none_iff room pid).mp hnone q hq

/-- Witness for C4 (amended) at a one-member room and a fresh playerId. -/
theorem C4_amended_witness :
    (∃ rest, (handleMessage 50 [1, 2] 2 none [(some "p1", Session.mk 1 "Al" [])]
        (.join (some "p2") (some "Bo"))).sent
      = (2, OutMsg.room_state [PlayerInfo.mk (some "p1") "Al" []]) :: rest)
    ∧ ∀ e ∈ [PlayerInfo.mk (some "p1") "Al" []], e.id ≠ some "p2" := by
  have h := C4_amended 50 [1, 2] 2 none [(some "p1", Session.mk 1 "Al" [])]
    (some "p2") (some "Bo") (by decide) (by decide)
  exact ⟨h.1, h.2 (by decide)⟩

/-- Claim C5, counterexample.  The claim says a `state_update` from a
connection that is not joined changes nothing and sends nothing.  But
`playerId = msg.playerId` runs before the capacity check, so a
capacity-rejected connection — which never joined: the full room holds
only the sessions of connections 1 and 2, and connection 3 was sent
`error "Room is full"` and closed — keeps a `playerId` naming another
connection's live session.  Its later `state_update` passes the
`playerId && room.get(playerId)` guard, mutates that other connection's
stored state (`p1`'s data becomes `x=9`), and broadcasts the delta under
`p1`'s username to the other member. -/
theorem C5_counterexample :
    heapRoom rejectedWorld.server 0
      = [(some "p1", Session.mk 1 "Al" []), (some "p2", Session.mk 2 "Bo" [])]
    ∧ rejectedWorld.outbox
      = [(1, OutMsg.room_state []),
         (2, OutMsg.room_state [PlayerInfo.mk (some "p1") "Al" []]),
         (1, OutMsg.player_joined (some "p2") "Bo"),
         (3, OutMsg.error "Room is full")]
    ∧ heapRoom (step 2 rejectedWorld
          (Ev.inbound 3 (InMsg.state_update [("x", "9")]))).server 0
      = [(some "p1", Session.mk 1 "Al" [("x", "9")]),
         (some "p2", Session.mk 2 "Bo" [])]
    ∧ (step 2 rejectedWorld (Ev.inbound 3 (InMsg.state_update [("x", "9")]))).outbox
      = rejectedWorld.outbox
          ++ [(2, OutMsg.state_update (some "p1") "Al" [("x", "9")])] := by
  decide

/-- Claim C5 (amended): a `state_update` from a connection whose recorded
`playerId` is truthy and names a stored session — whether or not that
connection ever successfully joined — merges the delta into that session's
stored state (delta fields overwrite, other fields persist), leaves every
other session's entry unchanged, and broadcasts exactly the delta — not
the merged state — plus that session's playerId and username to every
other open member, never to the member stored under that id; a
`state_update` from a connection with a falsy `playerId`, or whose
`playerId` names no stored session, changes nothing and sends nothing.
In particular a capacity-rejected connection's stale `playerId` can
mutate, and broadcast on behalf of, another connection's live session. -/
theorem C5_amended :
    (∀ (maxPlayers : Nat) (openConns : List Nat) (selfWs : Nat) (room : Room)
        (d : Obj) (p : String) (sess : Session),
      p ≠ "" → aGet room (some p) = some sess →
      ∀ res, res = handleMessage maxPlayers openConns selfWs (some (some p)) room
          (.state_update d) →
        res.room = aSet room (some p) { sess with data := jsSpread sess.data d }
        ∧ aGet res.room (some p) = some { sess with data := jsSpread sess.data d }
        ∧ (∀ k, aGet (jsSpread sess.data d) k =
            match aGet d k with
            | some v => some v
            | none => aGet sess.data k)
        ∧ (∀ q, q ≠ some p → aGet res.room q = aGet room q)
        ∧ (∀ q ∈ room, q.1 ≠ some p → q.2.conn ∈ openConns →
            (q.2.conn, OutMsg.state_update (some p) sess.username d) ∈ res.sent)
        ∧ (∀ t ∈ res.sent,
            t.2 = OutMsg.state_update (some p) sess.username d
            ∧ ∃ q, q ∈ res.room ∧ q.1 ≠ some p ∧ q.2.conn = t.1)
        ∧ res.closedSelf = false)
    ∧ (∀ (maxPlayers : Nat) (openConns : List Nat) (selfWs : Nat)
        (playerId : PVar) (room : Room) (d : Obj),
      pidTruthy playerId = false →
      handleMessage maxPlayers openConns selfWs playerId room (.state_update d)
        = { room := room, playerId := playerId, sent := [], closedSelf := false })
    ∧ (∀ (maxPlayers : Nat) (openConns : List Nat) (selfWs : Nat)
        (room : Room) (d : Obj) (p : String),
      p ≠ "" → aGet room (some p) = none →
      handleMessage maxPlayers openConns selfWs (some (some p)) room (.state_update d)
        = { room := room, playerId := some (some p), sent := [], closedSelf := false }) := by
  refine ⟨?_, ?_, ?_⟩
  · intro maxPlayers openConns selfWs room d p sess hp hsess res hres
    have hred : handleMessage maxPlayers openConns selfWs (some (some p)) room
        (.state_update d)
        = { room := aSet room (some p) { sess with data := jsSpread sess.data d },
            playerId := some (some p),
            sent := broadcast openConns
              (aSet room (some p) { sess with data := jsSpread sess.data d })
              (OutMsg.state_update (some p) sess.username d) (some (some p)),
            closedSelf := false } := by
      simp [handleMessage, hp, hsess]
    subst hres
    rw [hred]
    refine ⟨rfl, aGet_aSet_self _ _ _, jsSpread_aGet sess.data d, ?_, ?_, ?_, rfl⟩
    · intro q hq
      exact aGet_aSet_ne _ _ hq
    · intro q hq hqp ho
      exact mem_broadcast_of openConns _ _ (some (some p))
        (mem_aSet_of_ne _ hq hqp) hqp ho
    · intro t ht
      have ht' : t ∈ broadcast openConns
          (aSet room (some p) { sess with data := jsSpread sess.data d })
          (OutMsg.state_update (some p) sess.username d) (some (some p)) := ht
      rcases of_mem_broadcast ht' with ⟨hmsg, q, hq, hconn, hex⟩
      exact ⟨hmsg, q, hq, hex, hconn⟩
  · intro maxPlayers openConns selfWs playerId room d hfalsy
    rcases playerId with _ | pid
    · rfl
    · rcases pid with _ | s
      · rfl
      · have hs : s = "" := by
          by_contra hs
          simp [pidTruthy, hs] at hfalsy
        subst hs
        simp [handleMessage]
  · intro maxPlayers openConns selfWs room d p hp hnone
    simp [handleMessage, hp, hnone]

/-- Witness for C5 (amended) at a concrete room: `p1` (stored state
`x=0, y=1`) sends the delta `x=7, z=9`; the broadcast to `p2` carries
exactly the delta, and the stored state merges to `x=7, y=1, z=9`;
a falsy-`playerId` sender is a no-op. -/
theorem C5_amended_witness :
    aGet (handleMessage 50 [1, 2] 1 (some (some "p1"))
        [(some "p1", Session.mk 1 "Al" [("x", "0"), ("y", "1")]),
         (some "p2", Session.mk 2 "Bo" [])]
        (.state_update [("x", "7"), ("z", "9")])).room (some "p1")
      = some (Session.mk 1 "Al" (jsSpread [("x", "0"), ("y", "1")] [("x", "7"), ("z", "9")]))
    ∧ (2, OutMsg.state_update (some "p1") "Al" [("x", "7"), ("z", "9")])
        ∈ (handleMessage 50 [1, 2] 1 (some (some "p1"))
            [(some "p1", Session.mk 1 "Al" [("x", "0"), ("y", "1")]),
             (some "p2", Session.mk 2 "Bo" [])]
            (.state_update [("x", "7"), ("z", "9")])).sent
    ∧ handleMessage 50 [1, 2] 2 none
        [(some "p1", Session.mk 1 "Al" [])] (.state_update [("x", "7")])
      = { room := [(some "p1", Session.mk 1 "Al" [])], playerId := none,
          sent := [], closedSelf := false } := by
  have h := C5_amended.1 50 [1, 2] 1
    [(some "p1", Session.mk 1 "Al" [("x", "0"), ("y", "1")]),
     (some "p2", Session.mk 2 "Bo" [])]
    [("x", "7"), ("z", "9")] "p1" (Session.mk 1 "Al" [("x", "0"), ("y", "1")])
    (by decide) (by decide) _ rfl
  refine ⟨h.2.1, ?_, ?_⟩
  · exact h.2.2.2.2.1 (some "p2", Session.mk 2 "Bo" []) (by decide) (by decide) (by decide)
  · exact C5_amended.2.1 50 [1, 2] 2 none
      [(some "p1", Session.mk 1 "Al" [])] [("x", "7")] (by decide)

/-- Claim C6, counterexample.  The claim says a `custom` message from a
connection that has not joined is a no-op with nothing broadcast.  The
`custom` case has no joined-guard: here an unjoined connection (id 5,
`playerId` still `null`) sends a `custom` event into room `(g, r)` holding
member `p1`, and the event IS delivered to `p1`, with a `null` playerId. -/
theorem C6_counterexample :
    (handleMessage 50 [1, 5] 5 none [(some "p1", Session.mk 1 "Al" [])]
        (InMsg.custom (some "boom") "payload")).sent
      = [(1, OutMsg.custom none (some "boom") "payload")]
    ∧ [(1, OutMsg.custom none (some "boom") "payload")] ≠ ([] : List (Nat × OutMsg)) := by
  decide

/-- Claim C6 (amended): a `custom` message from a never-joined connection
(`playerId` still `null`) mutates no stored state, does not close the
connection and does not crash, but it is not a no-op: the event is
broadcast, with a `null` playerId and excluding no one, to every open
member of the connection's room. -/
theorem C6_amended (maxPlayers : Nat) (openConns : List Nat) (selfWs : Nat)
    (room : Room) (e : Option String) (d : Val) :
    ∀ res, res = handleMessage maxPlayers openConns selfWs none room (.custom e d) →
      res.room = room
      ∧ res.playerId = none
      ∧ res.closedSelf = false
      ∧ (∀ q ∈ room, q.2.conn ∈ openConns →
          (q.2.conn, OutMsg.custom none e d) ∈ res.sent)
      ∧ (∀ t ∈ res.sent,
          t.2 = OutMsg.custom none e d ∧ ∃ q, q ∈ room ∧ q.2.conn = t.1) := by
  intro res hres
  subst hres
  refine ⟨rfl, rfl, rfl, ?_, ?_⟩
  · intro q hq ho
    exact mem_broadcast_of openConns room (OutMsg.custom none e d) none hq trivial ho
  · intro t ht
    have ht' : t ∈ broadcast openConns room (OutMsg.custom none e d) none := ht
    rcases of_mem_broadcast ht' with ⟨hmsg, q, hq, hconn, _⟩
    exact ⟨hmsg, q, hq, hconn⟩

/-- Witness for C6 (amended): the unjoined connection 5's custom event is
delivered to member `p1`. -/
theorem C6_amended_witness :
    (1, OutMsg.custom none (some "boom") "payload")
      ∈ (handleMessage 50 [1, 5] 5 none [(some "p1", Session.mk 1 "Al" [])]
          (.custom (some "boom") "payload")).sent :=
  (C6_amended 50 [1, 5] 5 [(some "p1", Session.mk 1 "Al" [])]
      (some "boom") "payload" _ rfl).2.2.2.1
    (some "p1", Session.mk 1 "Al" []) (by decide) (by decide)

/-- Claim C7, counterexample.  The claim's universal reading — every
reachable state after a cleanup pass has only nonempty rooms, and an
emptied room is absent from any subsequent status query — fails: after
`p1` joins room `(g, r)` and closes (the cleanup pass empties the
registry, `rooms = 0`), a new connection to the same key lazily re-creates
an empty room via `getRoom`; that reachable state has a registered room
with zero sessions, and a status query counts it (`rooms = 1`,
`players = 0`). -/
theorem C7_counterexample :
    statusRooms cleanedWorld.server = 0
    ∧ (step 50 cleanedWorld (Ev.connect 2 (some "g") (some "r"))).server.registry
        = [("g__r", 1)]
    ∧ heapRoom (step 50 cleanedWorld (Ev.connect 2 (some "g") (some "r"))).server 1
        = []
    ∧ statusRooms (step 50 cleanedWorld (Ev.connect 2 (some "g") (some "r"))).server = 1
    ∧ statusPlayers (step 50 cleanedWorld (Ev.connect 2 (some "g") (some "r"))).server
        = 0 := by
  decide

/-- Claim C7 (amended): a room holding zero sessions is not retained by the
cleanup pass — immediately after `cleanEmpty` every room present in the
registry has at least one session, so it is not counted by a status query
taken then; empty rooms can however reappear afterwards, lazily created by
a new connection, and persist until the next cleanup pass. -/
theorem C7_amended (s : ServerState) :
    ∀ p ∈ (cleanEmpty s).registry, (heapRoom (cleanEmpty s) p.2).length ≠ 0 := by
  intro p hp
  simp only [cleanEmpty, List.mem_filter, decide_eq_true_eq] at hp
  have hh : heapRoom (cleanEmpty s) p.2 = heapRoom s p.2 := rfl
  rw [hh]
  exact hp.2

/-- Witness for C7 (amended) at a concrete registry holding one empty and
one populated room. -/
theorem C7_amended_witness :
    (heapRoom (cleanEmpty (ServerState.mk [("g__r", 0), ("h__q", 1)]
        [(0, []), (1, [(some "a", Session.mk 3 "A" [])])] 2)) 1).length ≠ 0 :=
  C7_amended (ServerState.mk [("g__r", 0), ("h__q", 1)]
    [(0, []), (1, [(some "a", Session.mk 3 "A" [])])] 2) ("h__q", 1) (by decide)

/-- Claim C8: a join rejected for capacity still records the connection's
`playerId` before the capacity check (the rejecting result carries it, the
room is untouched, the error is unicast and the connection closed); if the
rejected connection later emits a transport error, the session stored in
the room under that playerId — which belongs to a different, live
connection — is deleted, and the error event broadcasts nothing (an
`error` event never adds to the outbox). -/
theorem C8_rejected_join_error (maxPlayers : Nat) (openConns : List Nat)
    (selfWs : Nat) (playerId : PVar) (room : Room) (p : String)
    (uname : Option String) (sess : Session)
    (hp : p ≠ "") (hcap : room.length ≥ maxPlayers)
    (hsess : aGet room (some p) = some sess)
    (hother : sess.conn ≠ selfWs) (hlive : sess.conn ∈ openConns) :
    ∀ res, res = handleMessage maxPlayers openConns selfWs playerId room
        (.join (some p) uname) →
      res.playerId = some (some p)
      ∧ res.room = room
      ∧ res.closedSelf = true
      ∧ (selfWs ∈ openConns → res.sent = [(selfWs, OutMsg.error "Room is full")])
      ∧ aGet (handleError res.playerId room) (some p) = none
      ∧ (∀ (w : World) (c : Nat),
          (step maxPlayers w (Ev.error c)).outbox = w.outbox)
      ∧ (∃ q, q ∈ room ∧ q.1 = some p ∧ q.2.conn ≠ selfWs ∧ q.2.conn ∈ openConns) := by
  intro res hres
  have hred : handleMessage maxPlayers openConns selfWs playerId room
      (.join (some p) uname)
      = { room := room, playerId := some (some p),
          sent := sendTo openConns selfWs (.error "Room is full"),
          closedSelf := true } := by
    simp only [handleMessage]
    rw [if_pos hcap]
  subst hres
  rw [hred]
  refine ⟨rfl, rfl, rfl, ?_, ?_, fun w c => step_error_outbox maxPlayers w c,
    (some p, sess), aGet_mem hsess, rfl, hother, hlive⟩
  · intro hopen
    show sendTo openConns selfWs (.error "Room is full") = _
    simp [sendTo, hopen]
  · show aGet (handleError (some (some p)) room) (some p) = none
    have he : handleError (some (some p)) room = aDel room (some p) := by
      simp [handleError, hp]
    rw [he, aGet_aDel]
    simp

/-- Witness for C8: room `(p1)` is at capacity 1; connection 2's join as
`"p1"` is rejected, and its later error deletes connection 1's session. -/
theorem C8_rejected_join_error_witness :
    (handleMessage 1 [1, 2] 2 none [(some "p1", Session.mk 1 "Al" [])]
        (.join (some "p1") (some "Bo"))).playerId = some (some "p1")
    ∧ (handleMessage 1 [1, 2] 2 none [(some "p1", Session.mk 1 "Al" [])]
        (.join (some "p1") (some "Bo"))).room = [(some "p1", Session.mk 1 "Al" [])]
    ∧ aGet (handleError (handleMessage 1 [1, 2] 2 none
        [(some "p1", Session.mk 1 "Al" [])]
        (.join (some "p1") (some "Bo"))).playerId
        [(some "p1", Session.mk 1 "Al" [])]) (some "p1") = none := by
  have h := C8_rejected_join_error 1 [1, 2] 2 none
    [(some "p1", Session.mk 1 "Al" [])] "p1" (some "Bo") (Session.mk 1 "Al" [])
    (by decide) (by decide) (by decide) (by decide) (by decide) _ rfl
  exact ⟨h.1, h.2.1, by rw [h.1]; exact h.2.2.2.2.1⟩

/-- Claim C9: a join with a playerId already present in a below-capacity
room silently replaces the stored session (size is unchanged, and a room
with pairwise-distinct ids keeps them distinct — it never holds two
sessions with the same playerId); when the displaced connection's
transport later closes, the close handler deletes the replacing session
and broadcasts a `player_left` for that playerId (carrying the replacing
client's username) to the remaining open members — evicting the newer
client. -/
theorem C9_duplicate_join (maxPlayers : Nat) (openConns openConnsB : List Nat)
    (selfWs : Nat) (playerId : PVar) (room : Room) (p : String)
    (uname : Option String) (oldSess : Session)
    (hp : p ≠ "") (hcap : room.length < maxPlayers)
    (hold : aGet room (some p) = some oldSess) :
    ∀ res, res = handleMessage maxPlayers openConns selfWs playerId room
        (.join (some p) uname) →
      res.closedSelf = false
      ∧ aGet res.room (some p)
          = some { conn := selfWs, username := usernameOf uname, data := [] }
      ∧ res.room.length = room.length
      ∧ ((room.map Prod.fst).Nodup → (res.room.map Prod.fst).Nodup)
      ∧ ∀ cres, cres = handleClose openConnsB (some (some p)) res.room →
          aGet cres.room (some p) = none
          ∧ cres.ranClean = true
          ∧ (∀ q ∈ res.room, q.1 ≠ some p → q.2.conn ∈ openConnsB →
              (q.2.conn, OutMsg.player_left (some p) (usernameOf uname)) ∈ cres.sent) := by
  intro res hres
  have hred : handleMessage maxPlayers openConns selfWs playerId room
      (.join (some p) uname)
      = { room := aSet room (some p)
            { conn := selfWs, username := usernameOf uname, data := [] },
          playerId := some (some p),
          sent := sendTo openConns selfWs (.room_state
              (room.map (fun q => PlayerInfo.mk q.1 q.2.username q.2.data)))
            ++ broadcast openConns (aSet room (some p)
                { conn := selfWs, username := usernameOf uname, data := [] })
              (.player_joined (some p) (usernameOf uname)) (some (some p)),
          closedSelf := false } := by
    simp only [handleMessage]
    rw [if_neg (by omega)]
  subst hres
  rw [hred]
  refine ⟨rfl, aGet_aSet_self _ _ _, ?_, fun hnd => keys_nodup_aSet _ _ hnd, ?_⟩
  · rw [aSet_length, if_pos (by rw [hold]; rfl)]
  · intro cres hcres
    have hget : aGet (aSet room (some p)
        { conn := selfWs, username := usernameOf uname, data := [] }) (some p)
        = some { conn := selfWs, username := usernameOf uname, data := [] } :=
      aGet_aSet_self _ _ _
    have hclred : handleClose openConnsB (some (some p))
        (aSet room (some p) { conn := selfWs, username := usernameOf uname, data := [] })
        = { room := aDel (aSet room (some p)
              { conn := selfWs, username := usernameOf uname, data := [] }) (some p),
            sent := broadcast openConnsB
              (aDel (aSet room (some p)
                { conn := selfWs, username := usernameOf uname, data := [] }) (some p))
              (OutMsg.player_left (some p) (usernameOf uname)) none,
            ranClean := true } := by
      simp [handleClose, hp, hget]
    subst hcres
    rw [hclred]
    refine ⟨by rw [aGet_aDel]; simp, rfl, ?_⟩
    intro q hq hqp ho
    exact mem_broadcast_of openConnsB _ _ none (mem_aDel_of_ne hq hqp) trivial ho

/-- Witness for C9: connection 3 joins as `"p1"` over connection 1's
session; the displaced connection's close then evicts connection 3 and
broadcasts `player_left p1` (with the replacing username) to `p2`. -/
theorem C9_duplicate_join_witness :
    (handleMessage 50 [1, 2, 3] 3 none
        [(some "p1", Session.mk 1 "Al" []), (some "p2", Session.mk 2 "Bo" [])]
        (.join (some "p1") (some "Cy"))).room.length = 2
    ∧ aGet (handleClose [2, 3] (some (some "p1"))
        (handleMessage 50 [1, 2, 3] 3 none
          [(some "p1", Session.mk 1 "Al" []), (some "p2", Session.mk 2 "Bo" [])]
          (.join (some "p1") (some "Cy"))).room).room (some "p1") = none
    ∧ (2, OutMsg.player_left (some "p1") "Cy")
        ∈ (handleClose [2, 3] (some (some "p1"))
            (handleMessage 50 [1, 2, 3] 3 none
              [(some "p1", Session.mk 1 "Al" []), (some "p2", Session.mk 2 "Bo" [])]
              (.join (some "p1") (some "Cy"))).room).sent := by
  have h := C9_duplicate_join 50 [1, 2, 3] [2, 3] 3 none
    [(some "p1", Session.mk 1 "Al" []), (some "p2", Session.mk 2 "Bo" [])]
    "p1" (some "Cy") (Session.mk 1 "Al" []) (by decide) (by decide) (by decide) _ rfl
  have hc := h.2.2.2.2 _ rfl
  refine ⟨h.2.2.1, hc.1, ?_⟩
  have hmem : ((some "p2" : PId), Session.mk 2 "Bo" [])
      ∈ (handleMessage 50 [1, 2, 3] 3 none
        [(some "p1", Session.mk 1 "Al" []), (some "p2", Session.mk 2 "Bo" [])]
        (.join (some "p1") (some "Cy"))).room := by decide
  exact hc.2.2 (some "p2", Session.mk 2 "Bo" []) hmem (by decide) (by decide)

/-- Claim C10: a `join` lacking the `playerId` field is neither rejected
nor ignored: the connection is not closed, the connection-local id becomes
`undefined`, a session is inserted under the `undefined` key, a
`player_joined` carrying the `undefined` playerId is broadcast to the
other open members, and the username defaults to `"Player"` when absent. -/
theorem C10_join_missing_playerId (maxPlayers : Nat) (openConns : List Nat)
    (selfWs : Nat) (playerId : PVar) (room : Room) (uname : Option String)
    (hcap : room.length < maxPlayers) :
    ∀ res, res = handleMessage maxPlayers openConns selfWs playerId room
        (.join none uname) →
      res.closedSelf = false
      ∧ res.playerId = some none
      ∧ aGet res.room none
          = some { conn := selfWs, username := usernameOf uname, data := [] }
      ∧ (uname = none →
          aGet res.room none = some { conn := selfWs, username := "Player", data := [] })
      ∧ (∀ q ∈ room, q.1 ≠ none → q.2.conn ∈ openConns →
          (q.2.conn, OutMsg.player_joined none (usernameOf uname)) ∈ res.sent) := by
  intro res hres
  have hred : handleMessage maxPlayers openConns selfWs playerId room (.join none uname)
      = { room := aSet room none
            { conn := selfWs, username := usernameOf uname, data := [] },
          playerId := some none,
          sent := sendTo openConns selfWs (.room_state
              (room.map (fun q => PlayerInfo.mk q.1 q.2.username q.2.data)))
            ++ broadcast openConns (aSet room none
                { conn := selfWs, username := usernameOf uname, data := [] })
              (.player_joined none (usernameOf uname)) (some none),
          closedSelf := false } := by
    simp only [handleMessage]
    rw [if_neg (by omega)]
  subst hres
  rw [hred]
  refine ⟨rfl, rfl, aGet_aSet_self _ _ _, ?_, ?_⟩
  · intro hu
    subst hu
    exact aGet_aSet_self _ _ _
  · intro q hq hqp ho
    refine List.mem_append_right _ ?_
    exact mem_broadcast_of openConns _ _ (some none)
      (mem_aSet_of_ne _ hq hqp) hqp ho

/-- Witness for C10: connection 2 joins without a playerId next to member
`p1`; the session lands under the `undefined` key with username
`"Player"`, and `p1` is told `player_joined undefined "Player"`. -/
theorem C10_join_missing_playerId_witness :
    aGet (handleMessage 50 [1, 2] 2 none [(some "p1", Session.mk 1 "Al" [])]
        (.join none none)).room none
      = some (Session.mk 2 "Player" [])
    ∧ (1, OutMsg.player_joined none "Player")
        ∈ (handleMessage 50 [1, 2] 2 none [(some "p1", Session.mk 1 "Al" [])]
            (.join none none)).sent := by
  have h := C10_join_missing_playerId 50 [1, 2] 2 none
    [(some "p1", Session.mk 1 "Al" [])] none (by decide) _ rfl
  exact ⟨h.2.2.2.1 rfl,
    h.2.2.2.2 (some "p1", Session.mk 1 "Al" []) (by decide) (by decide) (by decide)⟩

end LorlServer
